import Mathlib

/-!
Shallow embedding of the Bernoulli naive Bayes spam classifier from
`naive_bayes.py`, together with proofs relating it to its specification.

Modelling conventions:
* A document is identified by its raw text content (`String`); the Python
  code reads the file named by `filename`, here the text is passed directly.
* Python's `dict` of word counts is modelled as a total function
  `String → Nat`; a key is absent exactly when its count is `0`, which
  matches `dict.get(word, 0)` and the insert-or-increment loop in `fit`.
* Python sets of strings are modelled as duplicate-free lists
  (`List.dedup`); only membership matters.
* Floating-point log scores are modelled by exact extended reals (`EReal`):
  `np.log` of a positive rational is its real natural logarithm and
  `np.log 0` is `-inf` (`⊥`); every argument of `np.log` in this program is
  a nonnegative rational, so negative arguments (NaN) never occur.
* A raised `ZeroDivisionError` is modelled as the `none` value of `Option`.
-/

/-- The two label values `self.HAM_LABEL = 'ham'` and `self.SPAM_LABEL = 'spam'`. -/
inductive Label where
  | ham
  | spam
deriving DecidableEq

/-- Python `text.split(' ')` on a list of characters: split at every single
space, keeping empty pieces produced by leading, trailing or consecutive
separators (so `"".split(' ') = ['']`). -/
def splitOnSpace : List Char → List (List Char)
  | [] => [[]]
  | c :: cs =>
    if c = ' ' then [] :: splitOnSpace cs
    else
      match splitOnSpace cs with
      | [] => [[c]]
      | t :: ts => (c :: t) :: ts

/-- Embedding of `NaiveBayes.word_set` (lines 86-91): read the text, drop the
first 9 characters (`text[9:]`, the `'Subject: '` header), remove every
carriage return (`replace('\r', '')`), turn every newline into a space
(`replace('\n', ' ')`), split on the space character and form the set of the
resulting words (`set(words)`, here a deduplicated list). -/
def word_set (text : String) : List String :=
  ((splitOnSpace (((text.data.drop 9).filter (fun c => c != '\r')).map
      (fun c => if c = '\n' then ' ' else c))).map String.mk).dedup

/-- The classifier state: the four data fields set by `__init__` and `fit`.
The two label-string constants of `__init__` are the inductive `Label`. -/
structure NaiveBayes where
  num_train_hams : Nat
  num_train_spams : Nat
  word_counts_spam : String → Nat
  word_counts_ham : String → Nat

/-- Embedding of `NaiveBayes.__init__`: zero counts, empty tables. -/
def NaiveBayes.init : NaiveBayes :=
  { num_train_hams := 0
    num_train_spams := 0
    word_counts_spam := fun _ => 0
    word_counts_ham := fun _ => 0 }

/-- Embedding of the helper `get_counts` nested in `fit` (lines 108-117):
starting from the empty dictionary, for every file and every word of its
word set, increment that word's count by one.  With the dictionary as a
total function defaulting to `0`, the two branches `dict1[word] += 1` and
`dict1[word] = 1` are both `Function.update d word (d word + 1)`. -/
def get_counts (filenames : List String) : String → Nat :=
  filenames.foldl
    (fun dict1 file =>
      (word_set file).foldl (fun d word => Function.update d word (d word + 1)) dict1)
    (fun _ => 0)

/-- Embedding of `NaiveBayes.fit` (lines 93-122): overwrite the four state
fields from the two training collections.  The previous state `_self` is
discarded entirely. -/
def NaiveBayes.fit (_self : NaiveBayes) (train_hams train_spams : List String) : NaiveBayes :=
  { num_train_hams := train_hams.length
    num_train_spams := train_spams.length
    word_counts_spam := get_counts train_spams
    word_counts_ham := get_counts train_hams }

/-- Model of `np.log` on the nonnegative rationals this program feeds it:
the real natural logarithm for positive arguments, `-inf` (the bottom
element of `EReal`) at `0`. -/
noncomputable def nplog (q : ℚ) : EReal :=
  if 0 < q then ((Real.log (q : ℝ) : ℝ) : EReal) else ⊥

/-- Embedding of `NaiveBayes.predict` (lines 124-149).  When the total
number of training documents is zero, line 131 divides by zero, modelled by
`none`.  Otherwise the two log scores are accumulated over the word set and
the priors are added, exactly as in the source; the two `+=` updates of
`spam_sum` and `ham_sum` at lines 143-144 appear here as the additions in
the final comparison `spam_sum > ham_sum`. -/
noncomputable def NaiveBayes.predict (nb : NaiveBayes) (filename : String) : Option Label :=
  if nb.num_train_hams + nb.num_train_spams = 0 then none
  else
    let p_ham : ℚ := (nb.num_train_hams : ℚ) / ((nb.num_train_hams : ℚ) + (nb.num_train_spams : ℚ))
    let p_spam : ℚ := (nb.num_train_spams : ℚ) / ((nb.num_train_hams : ℚ) + (nb.num_train_spams : ℚ))
    let set2 := word_set filename
    let spam_sum : EReal :=
      set2.foldl
        (fun s word => s + nplog (((nb.word_counts_spam word : ℚ) + 1) / ((nb.num_train_spams : ℚ) + 2))) 0
    let ham_sum : EReal :=
      set2.foldl
        (fun s word => s + nplog (((nb.word_counts_ham word : ℚ) + 1) / ((nb.num_train_hams : ℚ) + 2))) 0
    if spam_sum + nplog p_spam > ham_sum + nplog p_ham then some Label.spam
    else some Label.ham

/-- One pass of the `accuracy` loops (lines 159-164): count, over a list of
documents with known true label, how many predictions equal that label.  A
failing `predict` aborts the whole pass (`none`). -/
noncomputable def countCorrect (nb : NaiveBayes) (label : Label) : List String → Option Nat
  | [] => some 0
  | f :: rest => do
    let p ← nb.predict f
    let n ← countCorrect nb label rest
    pure ((if p = label then 1 else 0) + n)

/-- Embedding of `NaiveBayes.accuracy` (lines 151-165): predict every ham
and every spam document, count the matches, and divide by the total number
of documents; a zero total is the `ZeroDivisionError` of line 165, modelled
by `none`. -/
noncomputable def NaiveBayes.accuracy (nb : NaiveBayes) (hams spams : List String) : Option ℚ :=
  do
  let ch ← countCorrect nb Label.ham hams
  let cs ← countCorrect nb Label.spam spams
  if hams.length + spams.length = 0 then none
  else pure (((ch : ℚ) + (cs : ℚ)) / ((hams.length : ℚ) + (spams.length : ℚ)))

/-- Embedding of `NaiveBayes.load_data` (lines 32-61).  The filesystem is
abstracted as a function `listdir` from a relative path (a list of
components under the root) to the list of entries in that directory, and
`os.path.join` as list concatenation of components.  The three `assert`
statements (lines 47-49) compare entry sets and are modelled by `none` on
failure, in source order. -/
def load_data (listdir : List String → List String) :
    Option (List (List String) × List (List String) × List (List String) × List (List String)) :=
  if (listdir []).toFinset = ({"test", "train"} : Finset String) then
    if (listdir ["test"]).toFinset = ({"ham", "spam"} : Finset String) then
      if (listdir ["train"]).toFinset = ({"ham", "spam"} : Finset String) then
        some ((listdir ["train", "ham"]).map (fun f => ["train", "ham", f]),
              (listdir ["train", "spam"]).map (fun f => ["train", "spam", f]),
              (listdir ["test", "ham"]).map (fun f => ["test", "ham", f]),
              (listdir ["test", "spam"]).map (fun f => ["test", "spam", f]))
      else none
    else none
  else none

/-- Written from the specification's words for the Tokenizer (spec section
4.1): drop the first 9 characters, delete every carriage-return character,
replace every newline character with a single space, split the result on the
single-space character, and deduplicate. -/
def tokenizeSpec (text : String) : List String :=
  ((splitOnSpace (((text.data.drop 9).filter (fun c => c != '\r')).map
      (fun c => if c = '\n' then ' ' else c))).map String.mk).dedup

/-- Written from the specification's words for the log score of one label
(spec section 4.2, `predict`): the prior log-probability
`ln(num_train_L / N)` plus, over every distinct token `t` of the document's
token set, `ln((count_L(t) + 1) / (num_train_L + 2))`. -/
noncomputable def specLogScore (numL numTotal : Nat) (counts : String → Nat) (text : String) :
    EReal :=
  nplog ((numL : ℚ) / (numTotal : ℚ)) +
    ((word_set text).map
      (fun t => nplog (((counts t : ℚ) + 1) / ((numL : ℚ) + 2)))).sum

/-! Helper lemmas. -/

lemma word_set_nodup (text : String) : (word_set text).Nodup :=
  List.nodup_dedup _

lemma foldl_update_apply :
    ∀ (ws : List String), ws.Nodup → ∀ (d : String → Nat) (x : String),
      ws.foldl (fun d word => Function.update d word (d word + 1)) d x
        = d x + (if x ∈ ws then 1 else 0) := by
  intro ws
  induction ws with
  | nil => intro _ d x; simp
  | cons w ws ih =>
    intro h d x
    obtain ⟨hw, hnd⟩ := List.nodup_cons.mp h
    rw [List.foldl_cons, ih hnd]
    by_cases hx : x = w
    · subst hx
      simp [Function.update_same, hw]
    · simp [Function.update_noteq hx, hx]

lemma get_counts_apply (filenames : List String) (x : String) :
    get_counts filenames x = filenames.countP (fun d => decide (x ∈ word_set d)) := by
  suffices h : ∀ (d0 : String → Nat),
      (filenames.foldl
        (fun dict1 file =>
          (word_set file).foldl (fun d word => Function.update d word (d word + 1)) dict1)
        d0) x
        = d0 x + filenames.countP (fun d => decide (x ∈ word_set d)) by
    simpa [get_counts] using h (fun _ => 0)
  induction filenames with
  | nil => intro d0; simp
  | cons f fs ih =>
    intro d0
    rw [List.foldl_cons, ih, foldl_update_apply _ (word_set_nodup f), List.countP_cons]
    by_cases hx : x ∈ word_set f
    · simp [hx]; omega
    · simp [hx]

lemma foldl_add_eq {α : Type} (f : α → EReal) (l : List α) (a : EReal) :
    l.foldl (fun s w => s + f w) a = a + (l.map f).sum := by
  induction l generalizing a with
  | nil => simp
  | cons w l ih => simp [ih, add_assoc]

/-- C2: after `fit(train_hams, train_spams)`, the two counters equal the
input sizes, each label's table maps every token to the number of documents
of that label's collection whose token set contains it (with `0`, i.e.
absence, otherwise), and the result does not depend on the prior state. -/
theorem fit_sets_counts_and_tables (nb nb' : NaiveBayes)
    (train_hams train_spams : List String) :
    (nb.fit train_hams train_spams).num_train_hams = train_hams.length ∧
    (nb.fit train_hams train_spams).num_train_spams = train_spams.length ∧
    (∀ t, (nb.fit train_hams train_spams).word_counts_spam t
          = train_spams.countP (fun d => decide (t ∈ word_set d))) ∧
    (∀ t, (nb.fit train_hams train_spams).word_counts_ham t
          = train_hams.countP (fun d => decide (t ∈ word_set d))) ∧
    nb.fit train_hams train_spams = nb'.fit train_hams train_spams :=
  ⟨rfl, rfl, fun _ => get_counts_apply _ _, fun _ => get_counts_apply _ _, rfl⟩

/-- C3: the tokenizer returns exactly the deduplicated result of the spec's
pipeline (drop 9 characters, delete carriage returns, newline to space,
split on single space), it is a set (no duplicates), and the empty-string
token produced by a trailing space is retained. -/
theorem word_set_matches_spec_pipeline :
    (∀ text, word_set text = tokenizeSpec text ∧ (word_set text).Nodup) ∧
    "" ∈ word_set "Subject: a " :=
  ⟨fun text => ⟨rfl, word_set_nodup text⟩, by decide⟩

/-- C6: after `fit`, a token has a nonzero entry in a label's table exactly
when some document of that label's collection contains it, and every entry
is at most the size of that collection. -/
theorem fit_table_key_bounds (nb : NaiveBayes)
    (train_hams train_spams : List String) (t : String) :
    (1 ≤ (nb.fit train_hams train_spams).word_counts_spam t
        ↔ ∃ d ∈ train_spams, t ∈ word_set d) ∧
    (nb.fit train_hams train_spams).word_counts_spam t ≤ train_spams.length ∧
    (1 ≤ (nb.fit train_hams train_spams).word_counts_ham t
        ↔ ∃ d ∈ train_hams, t ∈ word_set d) ∧
    (nb.fit train_hams train_spams).word_counts_ham t ≤ train_hams.length := by
  have es : (nb.fit train_hams train_spams).word_counts_spam = get_counts train_spams := rfl
  have eh : (nb.fit train_hams train_spams).word_counts_ham = get_counts train_hams := rfl
  rw [es, eh, get_counts_apply, get_counts_apply]
  refine ⟨?_, List.countP_le_length _, ?_, List.countP_le_length _⟩
  · constructor
    · intro h1
      obtain ⟨d, hd, hp⟩ := List.countP_pos_iff.mp h1
      exact ⟨d, hd, of_decide_eq_true hp⟩
    · rintro ⟨d, hd, ht⟩
      exact List.countP_pos_iff.mpr ⟨d, hd, decide_eq_true ht⟩
  · constructor
    · intro h1
      obtain ⟨d, hd, hp⟩ := List.countP_pos_iff.mp h1
      exact ⟨d, hd, of_decide_eq_true hp⟩
    · rintro ⟨d, hd, ht⟩
      exact List.countP_pos_iff.mpr ⟨d, hd, decide_eq_true ht⟩

/-- C7 counterexample: the raw content `"Subject:X"` is nine characters, so
all of it is dropped and the tokenizer returns the singleton set containing
the empty string, not the set containing `"X"`. -/
theorem subject_x_tokenizes_to_empty_token :
    word_set "Subject:X" = [""] ∧ "X" ∉ word_set "Subject:X" := by decide

/-- C7 amended: a document whose raw content is the nine-character header
`"Subject: "` (with its trailing space) followed by `"X"` tokenizes to the
singleton set containing `"X"`. -/
theorem subject_header_then_x_tokenizes_to_x :
    word_set "Subject: X" = ["X"] := by decide

/-- C8: on two empty collections the total document count is zero and
`accuracy` signals the division-by-zero error, for every classifier state. -/
theorem accuracy_empty_inputs_fails (nb : NaiveBayes) : nb.accuracy [] [] = none := rfl

/-- C9: `load_data` succeeds exactly when the root lists precisely the
groups `test` and `train` and each of them lists precisely the subgroups
`ham` and `spam`, in which case it returns the four collections of
document identifiers; otherwise it fails the structural validation. -/
theorem load_data_structure_check (listdir : List String → List String) :
    load_data listdir =
      if (listdir []).toFinset = ({"test", "train"} : Finset String)
          ∧ (listdir ["test"]).toFinset = ({"ham", "spam"} : Finset String)
          ∧ (listdir ["train"]).toFinset = ({"ham", "spam"} : Finset String)
        then some ((listdir ["train", "ham"]).map (fun f => ["train", "ham", f]),
              (listdir ["train", "spam"]).map (fun f => ["train", "spam", f]),
              (listdir ["test", "ham"]).map (fun f => ["test", "ham", f]),
              (listdir ["test", "spam"]).map (fun f => ["test", "spam", f]))
        else none := by
  unfold load_data
  split_ifs <;> first | rfl | tauto

/-- Helper: on a trained state, `predict` returns the label decided by
comparing the two spec-form log scores. -/
lemma predict_eq_decision (nb : NaiveBayes) (text : String)
    (h : nb.num_train_hams + nb.num_train_spams ≠ 0) :
    nb.predict text =
      some
        (if specLogScore nb.num_train_spams (nb.num_train_hams + nb.num_train_spams)
              nb.word_counts_spam text
            > specLogScore nb.num_train_hams (nb.num_train_hams + nb.num_train_spams)
              nb.word_counts_ham text
          then Label.spam else Label.ham) := by
  have hspam : (word_set text).foldl
        (fun s word =>
          s + nplog (((nb.word_counts_spam word : ℚ) + 1) / ((nb.num_train_spams : ℚ) + 2))) 0
        + nplog ((nb.num_train_spams : ℚ)
            / ((nb.num_train_hams : ℚ) + (nb.num_train_spams : ℚ)))
      = specLogScore nb.num_train_spams (nb.num_train_hams + nb.num_train_spams)
          nb.word_counts_spam text := by
    rw [specLogScore, foldl_add_eq, zero_add, add_comm, Nat.cast_add]
  have hham : (word_set text).foldl
        (fun s word =>
          s + nplog (((nb.word_counts_ham word : ℚ) + 1) / ((nb.num_train_hams : ℚ) + 2))) 0
        + nplog ((nb.num_train_hams : ℚ)
            / ((nb.num_train_hams : ℚ) + (nb.num_train_spams : ℚ)))
      = specLogScore nb.num_train_hams (nb.num_train_hams + nb.num_train_spams)
          nb.word_counts_ham text := by
    rw [specLogScore, foldl_add_eq, zero_add, add_comm, Nat.cast_add]
  simp only [NaiveBayes.predict, if_neg h]
  rw [hspam, hham]
  exact (apply_ite some _ _ _).symm

/-- C1: on any state with a positive total number of training documents,
`predict` scores each label by the prior log-probability plus the sum, over
the distinct tokens of the document, of the smoothed log-likelihood
`ln((count_L(t) + 1) / (num_train_L + 2))`, and returns SPAM exactly when
the spam score strictly exceeds the ham score, HAM otherwise (ties
included). -/
theorem predict_computes_smoothed_log_scores (nb : NaiveBayes) (text : String)
    (h : 0 < nb.num_train_hams + nb.num_train_spams) :
    nb.predict text =
      some
        (if specLogScore nb.num_train_spams (nb.num_train_hams + nb.num_train_spams)
              nb.word_counts_spam text
            > specLogScore nb.num_train_hams (nb.num_train_hams + nb.num_train_spams)
              nb.word_counts_ham text
          then Label.spam else Label.ham) :=
  predict_eq_decision nb text (Nat.pos_iff_ne_zero.mp h)

/-- Witness for C1 at a concrete trained state and document. -/
theorem predict_computes_smoothed_log_scores_witness :
    0 < (NaiveBayes.init.fit ["Subject: a b"] ["Subject: c"]).num_train_hams
        + (NaiveBayes.init.fit ["Subject: a b"] ["Subject: c"]).num_train_spams ∧
    (NaiveBayes.init.fit ["Subject: a b"] ["Subject: c"]).predict "Subject: a c" =
      some
        (if specLogScore
              (NaiveBayes.init.fit ["Subject: a b"] ["Subject: c"]).num_train_spams
              ((NaiveBayes.init.fit ["Subject: a b"] ["Subject: c"]).num_train_hams
                + (NaiveBayes.init.fit ["Subject: a b"] ["Subject: c"]).num_train_spams)
              (NaiveBayes.init.fit ["Subject: a b"] ["Subject: c"]).word_counts_spam
              "Subject: a c"
            > specLogScore
              (NaiveBayes.init.fit ["Subject: a b"] ["Subject: c"]).num_train_hams
              ((NaiveBayes.init.fit ["Subject: a b"] ["Subject: c"]).num_train_hams
                + (NaiveBayes.init.fit ["Subject: a b"] ["Subject: c"]).num_train_spams)
              (NaiveBayes.init.fit ["Subject: a b"] ["Subject: c"]).word_counts_ham
              "Subject: a c"
          then Label.spam else Label.ham) :=
  ⟨by decide,
    predict_computes_smoothed_log_scores
      (NaiveBayes.init.fit ["Subject: a b"] ["Subject: c"]) "Subject: a c" (by decide)⟩

/-- Helper: a failing prediction on the first document aborts a counting
pass. -/
lemma countCorrect_cons_none (nb : NaiveBayes) (label : Label) (f : String)
    (rest : List String) (hf : nb.predict f = none) :
    countCorrect nb label (f :: rest) = none := by
  simp [countCorrect, hf]

/-- C4: with a zero total training count (never fit, or fit on two empty
collections), `predict` on any document and `accuracy` on any input signal
the division-by-zero error instead of returning a value. -/
theorem untrained_predict_and_accuracy_fail (nb : NaiveBayes)
    (h : nb.num_train_hams + nb.num_train_spams = 0)
    (text : String) (hams spams : List String) :
    nb.predict text = none ∧ nb.accuracy hams spams = none := by
  have hp : ∀ t : String, nb.predict t = none := by
    intro t
    simp only [NaiveBayes.predict, if_pos h]
  refine ⟨hp text, ?_⟩
  cases hams with
  | cons f rest =>
    rw [NaiveBayes.accuracy, countCorrect_cons_none nb _ f rest (hp f)]
    rfl
  | nil =>
    cases spams with
    | nil => rfl
    | cons f rest =>
      rw [NaiveBayes.accuracy, countCorrect_cons_none nb _ f rest (hp f)]
      rfl

/-- Witness for C4 at the freshly initialized state. -/
theorem untrained_predict_and_accuracy_fail_witness :
    NaiveBayes.init.num_train_hams + NaiveBayes.init.num_train_spams = 0 ∧
    (NaiveBayes.init.predict "Subject: x" = none ∧
      NaiveBayes.init.accuracy ["Subject: x"] [] = none) :=
  ⟨rfl, untrained_predict_and_accuracy_fail NaiveBayes.init rfl "Subject: x" ["Subject: x"] []⟩

/-- Helper: on a trained state a counting pass never fails and counts the
documents whose prediction equals the true label. -/
lemma countCorrect_eq_countP (nb : NaiveBayes) (label : Label)
    (h : nb.num_train_hams + nb.num_train_spams ≠ 0) :
    ∀ docs : List String,
      countCorrect nb label docs
        = some (docs.countP (fun d => decide (nb.predict d = some label))) := by
  intro docs
  induction docs with
  | nil => simp [countCorrect]
  | cons f rest ih =>
    obtain ⟨v, hv⟩ : ∃ v, nb.predict f = some v := ⟨_, predict_eq_decision nb f h⟩
    simp only [countCorrect, hv, ih, Option.bind_eq_bind, Option.some_bind, List.countP_cons,
      Option.some.injEq, hv]
    simp [hv, Nat.add_comm]

/-- C5: on a trained state and a nonempty pair of collections, `accuracy`
returns exactly the number of ham documents predicted HAM plus the number of
spam documents predicted SPAM, divided by the total document count, and the
value lies in the closed interval from 0 to 1. -/
theorem accuracy_is_match_fraction (nb : NaiveBayes) (hams spams : List String)
    (h : 0 < nb.num_train_hams + nb.num_train_spams)
    (htot : 0 < hams.length + spams.length) :
    ∃ q : ℚ,
      nb.accuracy hams spams = some q ∧
      q = ((hams.countP (fun d => decide (nb.predict d = some Label.ham)) : ℚ)
            + (spams.countP (fun d => decide (nb.predict d = some Label.spam)) : ℚ))
          / ((hams.length : ℚ) + (spams.length : ℚ)) ∧
      0 ≤ q ∧ q ≤ 1 := by
  have h' := Nat.pos_iff_ne_zero.mp h
  have hden : (0 : ℚ) < (hams.length : ℚ) + (spams.length : ℚ) := by
    exact_mod_cast htot
  refine ⟨_, ?_, rfl, ?_, ?_⟩
  · rw [NaiveBayes.accuracy, countCorrect_eq_countP nb _ h', countCorrect_eq_countP nb _ h']
    simp only [Option.bind_eq_bind, Option.some_bind]
    rw [if_neg (Nat.pos_iff_ne_zero.mp htot)]
    rfl
  · apply div_nonneg
    · exact add_nonneg (Nat.cast_nonneg _) (Nat.cast_nonneg _)
    · exact le_of_lt hden
  · rw [div_le_one hden]
    have h1 := List.countP_le_length (fun d => decide (nb.predict d = some Label.ham)) (l := hams)
    have h2 := List.countP_le_length (fun d => decide (nb.predict d = some Label.spam)) (l := spams)
    exact_mod_cast Nat.add_le_add h1 h2

/-- Witness for C5 at a concrete trained state and nonempty input. -/
theorem accuracy_is_match_fraction_witness :
    0 < (NaiveBayes.init.fit ["Subject: m"] ["Subject: f"]).num_train_hams
        + (NaiveBayes.init.fit ["Subject: m"] ["Subject: f"]).num_train_spams ∧
    0 < (["Subject: m"] : List String).length + ([] : List String).length ∧
    ∃ q : ℚ,
      (NaiveBayes.init.fit ["Subject: m"] ["Subject: f"]).accuracy ["Subject: m"] [] = some q ∧
      q = (((["Subject: m"] : List String).countP
              (fun d => decide ((NaiveBayes.init.fit ["Subject: m"] ["Subject: f"]).predict d
                = some Label.ham)) : ℚ)
            + ((([] : List String).countP
              (fun d => decide ((NaiveBayes.init.fit ["Subject: m"] ["Subject: f"]).predict d
                = some Label.spam))) : ℚ))
          / (((["Subject: m"] : List String).length : ℚ) + ((([] : List String).length) : ℚ)) ∧
      0 ≤ q ∧ q ≤ 1 :=
  ⟨by decide, by decide,
    accuracy_is_match_fraction (NaiveBayes.init.fit ["Subject: m"] ["Subject: f"])
      ["Subject: m"] [] (by decide) (by decide)⟩

/-- Helper: the token log-likelihood fold keeps a finite (real) score when
started at a finite value, since every smoothed ratio is strictly positive. -/
lemma predict_fold_coe (counts : String → Nat) (n : Nat) :
    ∀ (l : List String) (a : ℝ),
      ∃ r : ℝ,
        l.foldl (fun s word => s + nplog (((counts word : ℚ) + 1) / ((n : ℚ) + 2)))
            ((a : ℝ) : EReal)
          = ((r : ℝ) : EReal) := by
  intro l
  induction l with
  | nil => intro a; exact ⟨a, rfl⟩
  | cons w ws ih =>
    intro a
    rw [List.foldl_cons]
    have hpos : 0 < ((counts w : ℚ) + 1) / ((n : ℚ) + 2) := by positivity
    rw [show ((a : ℝ) : EReal) + nplog (((counts w : ℚ) + 1) / ((n : ℚ) + 2))
        = (((a + Real.log ((((counts w : ℚ) + 1) / ((n : ℚ) + 2) : ℚ) : ℝ)) : ℝ) : EReal) by
      rw [nplog, if_pos hpos, ← EReal.coe_add]]
    exact ih _

lemma nplog_zero : nplog 0 = ⊥ := by simp [nplog]

lemma nplog_one : nplog 1 = (0 : EReal) := by simp [nplog]

/-- C10: fitting on an empty ham collection and a nonempty spam collection
makes the ham prior zero, so its log score is negative infinity and every
document is predicted SPAM with no error; symmetrically, a nonempty ham
collection with an empty spam collection makes every prediction HAM. -/
theorem one_sided_fit_forces_label (nb nb' : NaiveBayes)
    (spams hams : List String) (text text' : String)
    (hs : spams ≠ []) (hh : hams ≠ []) :
    (nb.fit [] spams).predict text = some Label.spam ∧
    (nb'.fit hams []).predict text' = some Label.ham := by
  constructor
  · have hn0 : spams.length ≠ 0 := fun hl => hs (List.length_eq_zero.mp hl)
    have hcast : ((spams.length : ℚ)) ≠ 0 := Nat.cast_ne_zero.mpr hn0
    simp only [NaiveBayes.predict, NaiveBayes.fit, List.length_nil]
    rw [if_neg (by simpa using hn0)]
    simp only [Nat.cast_zero, zero_add, zero_div, div_self hcast, nplog_zero, nplog_one,
      EReal.add_bot, add_zero]
    obtain ⟨r, hr⟩ := predict_fold_coe (get_counts spams) spams.length (word_set text) 0
    rw [EReal.coe_zero] at hr
    rw [hr]
    exact if_pos (EReal.bot_lt_coe r)
  · have hn0 : hams.length ≠ 0 := fun hl => hh (List.length_eq_zero.mp hl)
    have hcast : ((hams.length : ℚ)) ≠ 0 := Nat.cast_ne_zero.mpr hn0
    simp only [NaiveBayes.predict, NaiveBayes.fit, List.length_nil]
    rw [if_neg (by simpa using hn0)]
    simp only [Nat.cast_zero, add_zero, zero_div, div_self hcast, nplog_zero, nplog_one,
      EReal.add_bot]
    obtain ⟨r, hr⟩ := predict_fold_coe (get_counts hams) hams.length (word_set text') 0
    rw [EReal.coe_zero] at hr
    rw [hr]
    exact if_neg not_lt_bot

/-- Witness for C10 at concrete one-sided training sets. -/
theorem one_sided_fit_forces_label_witness :
    (["Subject: f"] : List String) ≠ [] ∧ (["Subject: m"] : List String) ≠ [] ∧
    ((NaiveBayes.init.fit [] ["Subject: f"]).predict "Subject: z" = some Label.spam ∧
      (NaiveBayes.init.fit ["Subject: m"] []).predict "Subject: z" = some Label.ham) :=
  ⟨by decide, by decide,
    one_sided_fit_forces_label NaiveBayes.init NaiveBayes.init ["Subject: f"] ["Subject: m"]
      "Subject: z" "Subject: z" (by decide) (by decide)⟩
